import Mathlib

/-!
Shallow embedding of the `pyff` semantic-diff engine.

The Python AST fragment used by the engine is modelled by `Pyff.PyExpr` /
`Pyff.PyStmt` (node kinds: Name, Attribute, Constant, Call for expressions;
expression statements, return, assignment, function and class definitions, imports
and an opaque "other statement" kind).  Source-location fields
(`lineno`, `col_offset`, `ctx`) are not represented, so both of the source's
structural comparisons — `ast.dump(a) == ast.dump(b)` (statements.py) and
`compare_ast` (kitchensink.py), which skip exactly those fields — coincide
with structural equality of the model, written `beqExpr` / `beqStmt`.

The embedded operations follow `src/pyff/statements.py`, `src/pyff/functions.py`,
`src/pyff/modules.py` and `src/pyff/entrypoints.py`.  The repository's
`pyff/imports.py` and `pyff/classes.py` are referenced by those files but are
not part of the source tree; the definitions standing in for them are marked
`Modelled from the spec:` and follow the specification text for imported-name
extraction (§3, §4.1) and the class comparator (§4.4).
-/

namespace Pyff

/-- Constant payloads (`ast.Constant.value`).  Only the string/number/none
distinction matters to the engine (docstring detection looks for a string
constant). -/
inductive PyConst where
  | str (s : String)
  | int (n : Int)
  | bool (b : Bool)
  | noneConst
deriving DecidableEq, Repr

/-- Python expressions, restricted to the node kinds the engine manipulates:
`Name(id)`, `Attribute(value, attr)`, `Constant(value)` and `Call(func, args)`. -/
inductive PyExpr where
  | name (id : String)
  | attr (value : PyExpr) (a : String)
  | constant (value : PyConst)
  | call (func : PyExpr) (args : List PyExpr)
deriving Repr

mutual

/-- Structural equality of expressions.  Mirrors both `ast.dump(a) == ast.dump(b)`
and `kitchensink.compare_ast`, which ignore only source-location fields — fields
the model does not carry. -/
def beqExpr : PyExpr → PyExpr → Bool
  | .name a, .name b => a == b
  | .attr v1 a1, .attr v2 a2 => beqExpr v1 v2 && a1 == a2
  | .constant c1, .constant c2 => c1 == c2
  | .call f1 args1, .call f2 args2 => beqExpr f1 f2 && beqExprList args1 args2
  | _, _ => false

/-- Structural equality of expression lists (`compare_ast` on lists: equal
lengths and pointwise equality). -/
def beqExprList : List PyExpr → List PyExpr → Bool
  | [], [] => true
  | x :: xs, y :: ys => beqExpr x y && beqExprList xs ys
  | _, _ => false

end

/-- Structural equality of optional expressions (e.g. `returns` annotations:
`None` equals `None`, and a node never equals `None`). -/
def beqOptExpr : Option PyExpr → Option PyExpr → Bool
  | none, none => true
  | some a, some b => beqExpr a b
  | _, _ => false

/-- The `ast.arguments` node: positional arguments with optional annotations,
default expressions, and optional vararg/kwarg names. -/
structure PyArguments where
  args : List (String × Option PyExpr)
  defaults : List PyExpr
  vararg : Option String
  kwarg : Option String
deriving Repr

/-- Structural equality of argument lists (names and annotations pointwise). -/
def beqArgList : List (String × Option PyExpr) → List (String × Option PyExpr) → Bool
  | [], [] => true
  | (n1, t1) :: xs, (n2, t2) :: ys => n1 == n2 && beqOptExpr t1 t2 && beqArgList xs ys
  | _, _ => false

/-- Structural equality of `ast.arguments` nodes, as `compare_ast` computes it. -/
def beqArguments (a b : PyArguments) : Bool :=
  beqArgList a.args b.args && beqExprList a.defaults b.defaults
    && a.vararg == b.vararg && a.kwarg == b.kwarg

/-- Python statements, restricted to the node kinds the engine manipulates.
`other` is the generic "other statement" kind of the spec's AST contract,
whose only operation is structural equality. -/
inductive PyStmt where
  | exprStmt (value : PyExpr)
  | ret (value : Option PyExpr)
  | assign (target : PyExpr) (value : PyExpr)
  | functionDef (name : String) (args : PyArguments) (body : List PyStmt)
      (decoratorList : List PyExpr) (returns : Option PyExpr)
  | classDef (name : String) (bases : List PyExpr) (body : List PyStmt)
  | imprt (names : List (String × Option String))
  | importFrom (moduleName : String) (names : List (String × Option String))
  | other (tag : String)
deriving Repr

mutual

/-- Structural equality of statements (`ast.dump` comparison / `compare_ast`). -/
def beqStmt : PyStmt → PyStmt → Bool
  | .exprStmt v1, .exprStmt v2 => beqExpr v1 v2
  | .ret v1, .ret v2 => beqOptExpr v1 v2
  | .assign t1 v1, .assign t2 v2 => beqExpr t1 t2 && beqExpr v1 v2
  | .functionDef n1 a1 b1 d1 r1, .functionDef n2 a2 b2 d2 r2 =>
      n1 == n2 && beqArguments a1 a2 && beqStmtList b1 b2
        && beqExprList d1 d2 && beqOptExpr r1 r2
  | .classDef n1 bs1 b1, .classDef n2 bs2 b2 =>
      n1 == n2 && beqExprList bs1 bs2 && beqStmtList b1 b2
  | .imprt ns1, .imprt ns2 => ns1 == ns2
  | .importFrom m1 ns1, .importFrom m2 ns2 => m1 == m2 && ns1 == ns2
  | .other t1, .other t2 => t1 == t2
  | _, _ => false

/-- Structural equality of statement lists. -/
def beqStmtList : List PyStmt → List PyStmt → Bool
  | [], [] => true
  | x :: xs, y :: ys => beqStmt x y && beqStmtList xs ys
  | _, _ => false

end

/-! ## Insertion-ordered dictionaries

Python `dict` semantics as the engine relies on them: assignment to an
existing key updates the value in place (keeping the key's position),
assignment to a fresh key appends, and `popitem` removes the most recently
inserted entry. -/

/-- Assignment `d[k] = v` on an insertion-ordered dictionary. -/
def upsert (k : String) (v : α) : List (String × α) → List (String × α)
  | [] => [(k, v)]
  | (k', v') :: rest => if k' = k then (k, v) :: rest else (k', v') :: upsert k v rest

/-- Lookup `d[k]` (as an option; `d.get(k)`). -/
def alookup (k : String) : List (String × α) → Option α
  | [] => none
  | (k', v) :: rest => if k' = k then some v else alookup k rest

/-- Key-membership test `k in d`. -/
def amem (k : String) (d : List (String × α)) : Bool :=
  (alookup k d).isSome

/-- The key set of a dictionary. -/
def akeys (d : List (String × α)) : Finset String :=
  (d.map Prod.fst).toFinset

/-- The `dict.popitem()` operation: the most recently inserted entry together
with the remaining dictionary, or `none` on an empty dictionary (a `KeyError`
in Python). -/
def popitem (d : List (String × α)) : Option ((String × α) × List (String × α)) :=
  match d.getLast? with
  | none => none
  | some e => some (e, d.dropLast)

/-! ## Imported names

The repository imports `pyff.imports` for this data model, but that file is
not part of the source tree; everything in this section is modelled from the
specification (§3 "ImportedName"/"ImportedNames", §4.1 "Imported-name
extraction"). -/

/-- Modelled from the spec: `ImportedNames` (pyff/imports.py, absent from the
source tree) maps each imported local name to the fully qualified dotted path
it refers to ("canonical name"). -/
abbrev ImportedNames := List (String × String)

/-- Splitting a dotted path into its components (`str.split "."`). -/
def splitDotsAux (acc : List Char) : List Char → List String
  | [] => [String.mk acc.reverse]
  | c :: cs =>
      if c = '.' then String.mk acc.reverse :: splitDotsAux [] cs
      else splitDotsAux (c :: acc) cs

/-- The components of a dotted path: `splitDots "a.b.c" = ["a", "b", "c"]`. -/
def splitDots (s : String) : List String :=
  splitDotsAux [] s.data

/-- Modelled from the spec: `ImportedName.canonical_ast` — the canonical
dotted path rendered as an AST, `a.b.c` becoming nested attribute access on
the bare name `a`. -/
def canonicalAst (canonical : String) : PyExpr :=
  match splitDots canonical with
  | [] => .name canonical
  | p :: rest => rest.foldl (fun acc part => .attr acc part) (.name p)

/-- Modelled from the spec (§4.1): extraction of imported names from the
top-level statements of a module body.  `import a.b.c` binds local `a` to
canonical `a.b.c`; `import a.b.c as d` binds `d` to `a.b.c`; `from a.b import
c` binds `c` to `a.b.c`; with `as d` it binds `d` to `a.b.c`.
Extraction visits only the module body, never function or class bodies. -/
def extractImportedNames (body : List PyStmt) : ImportedNames :=
  body.foldl
    (fun table stmt =>
      match stmt with
      | .imprt names =>
          names.foldl
            (fun table p =>
              match p.2 with
              | some asname => upsert asname p.1 table
              | none =>
                  match splitDots p.1 with
                  | [] => upsert p.1 p.1 table
                  | root :: _ => upsert root p.1 table)
            table
      | .importFrom moduleName names =>
          names.foldl
            (fun table p =>
              upsert (p.2.getD p.1) (moduleName ++ "." ++ p.1) table)
            table
      | _ => table)
    []

/-! ## The `FullyQualifyNames` transformer (src/pyff/statements.py) -/

/-- Mutable state of the `FullyQualifyNames` visitor: the `substitutions` and
`references` dictionaries and the `_current` dotted-prefix register. -/
structure FQState where
  substitutions : List (String × String)
  references : List (String × String)
  current : Option String
deriving Repr

/-- The initial visitor state. -/
def FQState.init : FQState := ⟨[], [], none⟩

/-- Python truthiness of the `_current` register (`None` and the empty string
are falsy). -/
def pyTruthy : Option String → Bool
  | none => false
  | some s => s ≠ ""

/-- The body of `FullyQualifyNames.visit_Name`: reset `_current`; when the
identifier is an imported local name, record the reference, and unless the
identifier already equals its canonical form, record the substitution and
replace the node by the canonical AST. -/
def fqName (imports : ImportedNames) (id : String) (st : FQState) : PyExpr × FQState :=
  let st := { st with current := none }
  match alookup id imports with
  | some canonical =>
      let st := { st with current := some canonical,
                          references := upsert canonical id st.references }
      if id = canonical then (.name id, st)
      else (canonicalAst canonical,
            { st with substitutions := upsert id canonical st.substitutions })
  | none => (.name id, st)

mutual

/-- `FullyQualifyNames.visit` on expressions.  `visit_Name` and
`visit_Attribute` are overridden; all other nodes are handled by
`generic_visit`, which transforms the children in field order and leaves the
node itself unchanged. -/
def fqExpr (imports : ImportedNames) : PyExpr → FQState → PyExpr × FQState
  | .name id, st => fqName imports id st
  | .attr v a, st =>
      let (v', st) := fqExpr imports v st
      if pyTruthy st.current then
        match st.current with
        | some prefx =>
            let key := (alookup prefx st.references).getD ""
            (.attr v' a,
             { st with current := some (prefx ++ "." ++ a),
                       references := upsert (prefx ++ "." ++ a) (key ++ "." ++ a)
                         st.references })
        | none => (.attr v' a, st)
      else (.attr v' a, st)
  | .constant c, st => (.constant c, st)
  | .call f args, st =>
      let (f', st) := fqExpr imports f st
      let (args', st) := fqExprList imports args st
      (.call f' args', st)

/-- `generic_visit` over a list of child expressions, threading the state in
order. -/
def fqExprList (imports : ImportedNames) : List PyExpr → FQState → List PyExpr × FQState
  | [], st => ([], st)
  | e :: es, st =>
      let (e', st) := fqExpr imports e st
      let (es', st) := fqExprList imports es st
      (e' :: es', st)

end

/-- `generic_visit` over an optional child expression. -/
def fqOptExpr (imports : ImportedNames) : Option PyExpr → FQState → Option PyExpr × FQState
  | none, st => (none, st)
  | some e, st =>
      let (e', st) := fqExpr imports e st
      (some e', st)

/-- `generic_visit` over an `ast.arguments` node: the argument annotations and
then the default expressions, in field order. -/
def fqArguments (imports : ImportedNames) (a : PyArguments) (st : FQState) :
    PyArguments × FQState :=
  let (args', st) := go a.args st
  let (defaults', st) := fqExprList imports a.defaults st
  ({ a with args := args', defaults := defaults' }, st)
where
  go : List (String × Option PyExpr) → FQState → List (String × Option PyExpr) × FQState
  | [], st => ([], st)
  | (n, ann) :: rest, st =>
      let (ann', st) := fqOptExpr imports ann st
      let (rest', st) := go rest st
      ((n, ann') :: rest', st)

mutual

/-- `FullyQualifyNames.visit` on statements: `generic_visit` transforms every
child expression and child statement in AST field order. -/
def fqStmt (imports : ImportedNames) : PyStmt → FQState → PyStmt × FQState
  | .exprStmt v, st =>
      let (v', st) := fqExpr imports v st
      (.exprStmt v', st)
  | .ret v, st =>
      let (v', st) := fqOptExpr imports v st
      (.ret v', st)
  | .assign t v, st =>
      let (t', st) := fqExpr imports t st
      let (v', st) := fqExpr imports v st
      (.assign t' v', st)
  | .functionDef n args body dec rets, st =>
      let (args', st) := fqArguments imports args st
      let (body', st) := fqStmtList imports body st
      let (dec', st) := fqExprList imports dec st
      let (rets', st) := fqOptExpr imports rets st
      (.functionDef n args' body' dec' rets', st)
  | .classDef n bases body, st =>
      let (bases', st) := fqExprList imports bases st
      let (body', st) := fqStmtList imports body st
      (.classDef n bases' body', st)
  | .imprt ns, st => (.imprt ns, st)
  | .importFrom m ns, st => (.importFrom m ns, st)
  | .other t, st => (.other t, st)

/-- `generic_visit` over a list of child statements. -/
def fqStmtList (imports : ImportedNames) : List PyStmt → FQState → List PyStmt × FQState
  | [], st => ([], st)
  | s :: ss, st =>
      let (s', st) := fqStmt imports s st
      let (ss', st) := fqStmtList imports ss st
      (s' :: ss', st)

end

/-! ## `find_external_name_matches` and `pyff_statement` (src/pyff/statements.py) -/

/-- The first matching loop of `find_external_name_matches`: for every
substitution `original → fqdn` made in the old statement whose canonical path
occurs in the new statement's reference map, record the pair
`(original, new_references[fqdn])`. -/
def crossMatchesOld (subs refs : List (String × String)) : Finset (String × String) :=
  subs.foldl
    (fun acc p =>
      match alookup p.2 refs with
      | some r => insert (p.1, r) acc
      | none => acc)
    ∅

/-- The second matching loop: for every substitution `original → fqdn` made in
the new statement whose canonical path occurs in the old statement's reference
map, record the pair `(old_references[fqdn], original)`. -/
def crossMatchesNew (subs refs : List (String × String)) : Finset (String × String) :=
  subs.foldl
    (fun acc p =>
      match alookup p.2 refs with
      | some r => insert (r, p.1) acc
      | none => acc)
    ∅

/-- The result of running `FullyQualifyNames` over one statement. -/
def runFQ (imports : ImportedNames) (s : PyStmt) : PyStmt × FQState :=
  fqStmt imports s FQState.init

/-- `find_external_name_matches` (src/pyff/statements.py lines 107-174).  An
`ExternalNameUsageChange` is its set of `SingleExternalNameUsageChange`
records, each a `(old local form, new local form)` pair.  The function
returns `none` when the statements are identical, when the canonicalized
forms still differ, and also when the collected change set is empty
(`return ExternalNameUsageChange(changes) if changes else None`). -/
def findExternalNameMatches (old new : PyStmt)
    (oldImports newImports : ImportedNames) : Option (Finset (String × String)) :=
  if beqStmt old new then none
  else
    let fqOld := runFQ oldImports old
    let fqNew := runFQ newImports new
    let changes : Finset (String × String) :=
      if beqStmt fqOld.1 fqNew.1 then
        crossMatchesOld fqOld.2.substitutions fqNew.2.references ∪
          crossMatchesNew fqNew.2.substitutions fqOld.2.references
      else ∅
    if changes ≠ ∅ then some changes else none

/-- A change descriptor held by a `StatementPyfference` set.  The only kind
the engine ever constructs is an `ExternalNameUsageChange`. -/
inductive StmtChange where
  | externalNameUsage (changes : Finset (String × String))
deriving DecidableEq

/-- `StatementPyfference`: two disjoint sets of change descriptors. -/
structure StatementPyfference where
  semanticallyRelevant : Finset StmtChange
  semanticallyIrrelevant : Finset StmtChange
deriving DecidableEq

/-- `StatementPyfference.semantically_different()`:
`bool(self.semantically_relevant or not self.semantically_irrelevant)`. -/
def StatementPyfference.semanticallyDifferent (p : StatementPyfference) : Bool :=
  decide (p.semanticallyRelevant ≠ ∅ ∨ p.semanticallyIrrelevant = ∅)

/-- `StatementPyfference.is_specific()`:
`bool(self.semantically_relevant or self.semantically_irrelevant)`. -/
def StatementPyfference.isSpecific (p : StatementPyfference) : Bool :=
  decide (p.semanticallyRelevant ≠ ∅ ∨ p.semanticallyIrrelevant ≠ ∅)

/-- `pyff_statement` (src/pyff/statements.py lines 222-254): identical
statements compare to `None`; otherwise a `StatementPyfference` is built and
the external-name match, if any, is added as a semantically irrelevant
change. -/
def pyffStatement (old new : PyStmt)
    (oldImports newImports : ImportedNames) : Option StatementPyfference :=
  if beqStmt old new then none
  else
    match findExternalNameMatches old new oldImports newImports with
    | some c => some ⟨∅, {StmtChange.externalNameUsage c}⟩
    | none => some ⟨∅, ∅⟩

/-! ## Function implementation changes (src/pyff/functions.py) -/

/-- The tagged change variants stored in a `FunctionPyfference.implementation`
set: the base `FunctionImplementationChange` ("generic" change),
`ExternalUsageChange {gone, appeared}` and `StatementChange`. -/
inductive FIChange where
  | generic
  | externalUsage (gone appeared : Finset String)
  | statementChange (change : StatementPyfference)
deriving DecidableEq

/-- Equivalence of change records as a Python `set` observes it: elements
collide exactly when their hashes agree and `__eq__` holds.  Each of the three
classes hashes to a distinct constant string, so collisions only happen within
one class.  Base `FunctionImplementationChange.__eq__` is an `isinstance`
check, so any two base instances are equal; `StatementChange` overrides
`__hash__` but inherits that `__eq__`, so any two `StatementChange` instances
are equal as well; `ExternalUsageChange.__eq__` compares the `gone` and
`appeared` sets. -/
def pySetEq : FIChange → FIChange → Bool
  | .generic, .generic => true
  | .externalUsage g1 a1, .externalUsage g2 a2 => decide (g1 = g2 ∧ a1 = a2)
  | .statementChange _, .statementChange _ => true
  | _, _ => false

/-- `set.add`: the element is appended unless an equal element (in the sense
of `pySetEq`) is already present. -/
def pyInsert (c : FIChange) (s : List FIChange) : List FIChange :=
  if s.any (fun x => pySetEq x c) then s else s ++ [c]

/-- The captured pieces of an `ast.FunctionDef` node. -/
structure FnDef where
  name : String
  args : PyArguments
  body : List PyStmt
  decoratorList : List PyExpr
  returns : Option PyExpr

/-- `FunctionSummary`: a function's name, its AST node and the property
flag. -/
structure FunctionSummary where
  name : String
  node : FnDef
  isProp : Bool

/-- `FunctionPyfference`: the new name, the old name when renamed, and the
set of implementation changes (in `set.add` order). -/
structure FunctionPyfference where
  name : String
  oldName : Option String
  implementation : List FIChange

/-! ## `ExternalNamesExtractor` (src/pyff/functions.py lines 176-201) -/

/-- Visitor state of `ExternalNamesExtractor`: the collected canonical-name
set and the `in_progress` dotted-prefix register. -/
structure ENState where
  names : Finset String
  inProgress : Option String

/-- The initial extractor state. -/
def ENState.init : ENState := ⟨∅, none⟩

mutual

/-- `ExternalNamesExtractor.visit` on expressions.  `visit_Name` resets
`in_progress`, then either records an imported name or starts a dotted
prefix; `visit_Attribute` resets `in_progress`, visits the children, then
extends the pending prefix and records it when the extended prefix is an imported
name.  All other nodes recurse into children in field order. -/
def enExpr (imports : ImportedNames) : PyExpr → ENState → ENState
  | .name id, st =>
      let st := { st with inProgress := none }
      if amem id imports then { st with names := insert id st.names }
      else { st with inProgress := some id }
  | .attr v a, st =>
      let st := { st with inProgress := none }
      let st := enExpr imports v st
      match st.inProgress with
      | some p =>
          let extended := p ++ "." ++ a
          if amem extended imports then
            { st with names := insert extended st.names, inProgress := none }
          else { st with inProgress := some extended }
      | none => st
  | .constant _, st => st
  | .call f args, st => enExprList imports args (enExpr imports f st)

/-- `generic_visit` over a list of child expressions. -/
def enExprList (imports : ImportedNames) : List PyExpr → ENState → ENState
  | [], st => st
  | e :: es, st => enExprList imports es (enExpr imports e st)

end

/-- `generic_visit` over an optional child expression. -/
def enOptExpr (imports : ImportedNames) : Option PyExpr → ENState → ENState
  | none, st => st
  | some e, st => enExpr imports e st

/-- `generic_visit` over an `ast.arguments` node (annotations, then default
expressions). -/
def enArguments (imports : ImportedNames) (a : PyArguments) (st : ENState) : ENState :=
  enExprList imports a.defaults (go a.args st)
where
  go : List (String × Option PyExpr) → ENState → ENState
  | [], st => st
  | (_, ann) :: rest, st => go rest (enOptExpr imports ann st)

mutual

/-- `ExternalNamesExtractor.visit` on statements: nested functions and
classes are visited transparently (`generic_visit` in AST field order). -/
def enStmt (imports : ImportedNames) : PyStmt → ENState → ENState
  | .exprStmt v, st => enExpr imports v st
  | .ret v, st => enOptExpr imports v st
  | .assign t v, st => enExpr imports v (enExpr imports t st)
  | .functionDef _ args body dec rets, st =>
      enOptExpr imports rets
        (enExprList imports dec (enStmtList imports body (enArguments imports args st)))
  | .classDef _ bases body, st =>
      enStmtList imports body (enExprList imports bases st)
  | .imprt _, st => st
  | .importFrom _ _, st => st
  | .other _, st => st

/-- `generic_visit` over a list of child statements. -/
def enStmtList (imports : ImportedNames) : List PyStmt → ENState → ENState
  | [], st => st
  | s :: ss, st => enStmtList imports ss (enStmt imports s st)

end

/-- The set of imported names used in a function body: one extractor walks
all body statements in order (`for statement in old.body: walker.visit(statement)`). -/
def externalNamesInBody (imports : ImportedNames) (body : List PyStmt) : Finset String :=
  (enStmtList imports body ENState.init).names

/-- `compare_import_usage` (src/pyff/functions.py lines 204-243): the
`appeared`/`gone` set differences of imported-name usage in the two bodies;
`none` when both are empty. -/
def compareImportUsage (old new : FnDef)
    (oldImports newImports : ImportedNames) : Option FIChange :=
  let oldNames := externalNamesInBody oldImports old.body
  let newNames := externalNamesInBody newImports new.body
  let appeared := newNames \ oldNames
  let gone := oldNames \ newNames
  if appeared ≠ ∅ ∨ gone ≠ ∅ then some (.externalUsage gone appeared) else none

/-! ## `pyff_function` (src/pyff/functions.py lines 246-328) -/

/-- Truthiness of `ast.get_docstring(node)`: the call returns the docstring
run through `inspect.cleandoc`, which is the empty — hence falsy — string
exactly when the docstring consists only of whitespace.  So the test is
truthy iff the first body statement is an expression statement holding a
string constant with at least one non-whitespace character. -/
def hasDocstring (body : List PyStmt) : Bool :=
  match body with
  | .exprStmt (.constant (.str s)) :: _ => s.data.any (fun c => !c.isWhitespace)
  | _ => false

/-- The per-side docstring drop of `pyff_function`: when docstrings are not
checked and `ast.get_docstring` is truthy for the side, its first body
statement is removed. -/
def effectiveBody (checkDocstrings : Bool) (body : List PyStmt) : List PyStmt :=
  if ¬checkDocstrings ∧ hasDocstring body then body.tail else body

/-- The statement-pairing loop of `pyff_function`: bodies are walked in
lockstep (`zip_longest`); when one side runs out a generic change is recorded
and the walk stops; a specific statement difference is wrapped as a
`StatementChange`, an unspecific one recorded as a generic change. -/
def walkBodies (oldImports newImports : ImportedNames) :
    List PyStmt → List PyStmt → List FIChange → List FIChange
  | [], [], acc => acc
  | [], _ :: _, acc => pyInsert .generic acc
  | _ :: _, [], acc => pyInsert .generic acc
  | o :: os, n :: ns, acc =>
      match pyffStatement o n oldImports newImports with
      | none => walkBodies oldImports newImports os ns acc
      | some change =>
          if change.isSpecific then
            walkBodies oldImports newImports os ns (pyInsert (.statementChange change) acc)
          else
            walkBodies oldImports newImports os ns (pyInsert .generic acc)

/-- The implementation-change set recorded by `pyff_function` (in `set.add`
order): decorator, return-annotation and argument mismatches, the lockstep
body walk, and the imported-name usage comparison. -/
def pyffFunctionImpl (old new : FunctionSummary)
    (oldImports newImports : ImportedNames)
    (checkTyping checkDocstrings : Bool) : List FIChange :=
  let oldBody := effectiveBody checkDocstrings old.node.body
  let newBody := effectiveBody checkDocstrings new.node.body
  let impl : List FIChange := []
  let impl :=
    if ¬beqExprList old.node.decoratorList new.node.decoratorList then
      pyInsert .generic impl
    else impl
  let impl :=
    if checkTyping ∧ ¬beqOptExpr old.node.returns new.node.returns then
      pyInsert .generic impl
    else impl
  let impl :=
    if checkTyping ∧ ¬beqArguments old.node.args new.node.args then
      pyInsert .generic impl
    else impl
  let impl := walkBodies oldImports newImports oldBody newBody impl
  match compareImportUsage old.node new.node oldImports newImports with
  | some c => pyInsert c impl
  | none => impl

/-- `pyff_function` (src/pyff/functions.py lines 246-328): record a rename,
drop unchecked docstrings, compare decorators, return annotation and
arguments, walk the bodies in lockstep, compare imported-name usage, and
build the difference record (`None` iff nothing was recorded). -/
def pyffFunction (old new : FunctionSummary)
    (oldImports newImports : ImportedNames)
    (checkTyping checkDocstrings : Bool) : Option FunctionPyfference :=
  let oldName : Option String := if old.name ≠ new.name then some old.name else none
  let impl :=
    pyffFunctionImpl old new oldImports newImports checkTyping checkDocstrings
  if oldName = none ∧ impl = [] then none else some ⟨new.name, oldName, impl⟩

/-! ## `FunctionsExtractor` and `pyff_functions` (src/pyff/functions.py) -/

/-- The `property` decorator test: a decorator that is a bare `Name` node
with identifier `property`. -/
def isPropertyDecorator (e : PyExpr) : Bool :=
  match e with
  | .name id => id == "property"
  | _ => false

/-- `FunctionsExtractor.visit` continued from an existing dictionary (the
extractor object is reused by `pyff_function_code`): records every
`FunctionDef` node, skips `ClassDef` bodies, and finds no functions inside
the remaining statement kinds. -/
def extractFunctionsInto (init : List (String × FunctionSummary)) (body : List PyStmt) :
    List (String × FunctionSummary) :=
  body.foldl
    (fun d stmt =>
      match stmt with
      | .functionDef n args fnBody dec rets =>
          upsert n ⟨n, ⟨n, args, fnBody, dec, rets⟩, dec.any isPropertyDecorator⟩ d
      | _ => d)
    init

/-- `FunctionsExtractor` run on a module or class body with a fresh
dictionary. -/
def extractFunctions (body : List PyStmt) : List (String × FunctionSummary) :=
  extractFunctionsInto [] body

/-- `FunctionsExtractor.names`: the set of discovered function names. -/
def functionNames (body : List PyStmt) : Finset String :=
  akeys (extractFunctions body)

/-- `FunctionsPyfference`: the `new`, `changed` and `removed` mappings keyed
by function name. -/
structure FunctionsPyfference where
  new : List (String × FunctionSummary)
  changed : List (String × FunctionPyfference)
  removed : List (String × FunctionSummary)

/-- The `changed` mapping of `pyff_functions`: for every function name
present in both bodies, the result of `pyff_function` when it reports a
difference.  (Python iterates the unordered `frozenset` intersection; the
model iterates the old dictionary's insertion order, which only affects the
order of the association list, not its key set.) -/
def changedFunctions (old new : List PyStmt)
    (oldImports newImports : ImportedNames) : List (String × FunctionPyfference) :=
  let oldD := extractFunctions old
  let newD := extractFunctions new
  ((oldD.map Prod.fst).filter (fun n => amem n newD)).foldl
    (fun acc n =>
      match alookup n oldD, alookup n newD with
      | some o, some nw =>
          match pyffFunction o nw oldImports newImports true false with
          | some d => acc ++ [(n, d)]
          | none => acc
      | _, _ => acc)
    []

/-- Restriction of an extracted dictionary to a set of names (used to build
the `new` and `removed` mappings; Python iterates the unordered name set, the
model keeps the dictionary's insertion order). -/
def restrictTo (names : Finset String) (d : List (String × FunctionSummary)) :
    List (String × FunctionSummary) :=
  d.filter (fun p => decide (p.1 ∈ names))

/-- `pyff_functions` (src/pyff/functions.py lines 446-499): extract the
functions of both bodies, diff the common ones, and collect the new and
removed ones; `None` when all three mappings are empty. -/
def pyffFunctions (old new : List PyStmt)
    (oldImports newImports : ImportedNames) : Option FunctionsPyfference :=
  let oldD := extractFunctions old
  let newD := extractFunctions new
  let differences := changedFunctions old new oldImports newImports
  let newNames := akeys newD \ akeys oldD
  let removedNames := akeys oldD \ akeys newD
  let newFunctions := restrictTo newNames newD
  let removedFunctions := restrictTo removedNames oldD
  if !differences.isEmpty || !newFunctions.isEmpty || !removedFunctions.isEmpty then
    some ⟨newFunctions, differences, removedFunctions⟩
  else none

/-- `pyff_function_code` (src/pyff/functions.py lines 331-361): one extractor
instance visits the old snippet, `popitem` takes the most recently recorded
function (a `KeyError` on an empty dictionary becomes the `ValueError`
below); the same, still-populated extractor then visits the new snippet and
`popitem` is applied again; finally `pyff_function` compares the two popped
summaries. -/
def pyffFunctionCode (old new : List PyStmt)
    (oldImports newImports : ImportedNames) :
    Except String (Option FunctionPyfference) :=
  match popitem (extractFunctions old) with
  | none => .error "Old module does not seem to contain exactly one function code"
  | some ((_, oldSummary), rest) =>
      match popitem (extractFunctionsInto rest new) with
      | none => .error "Old module does not seem to contain exactly one function code"
      | some ((_, newSummary), _) =>
          .ok (pyffFunction oldSummary newSummary oldImports newImports true false)

/-! ## Module-level comparison (src/pyff/modules.py)

`pyff_module` delegates to `pyff_imports` and `pyff_classes` from the absent
`pyff/imports.py` and `pyff/classes.py`; those two comparators are modelled
from the specification (§4.4, §4.5). -/

/-- `ImportsPyfference`: the `removed_imports` and `new_imports` mappings,
keyed by local name. -/
structure ImportsPyfference where
  removedImports : Finset String
  newImports : Finset String
deriving DecidableEq

/-- Modelled from the spec: `pyff_imports` (pyff/imports.py, absent from the
source tree) produces an `ImportsDiff` from the raw local-name set difference
on the two import tables, and reports no difference as null (§4.5 step 2,
§3 "ImportsDiff"). -/
def pyffImports (old new : List PyStmt) : Option ImportsPyfference :=
  let oldTable := extractImportedNames old
  let newTable := extractImportedNames new
  let removed := akeys oldTable \ akeys newTable
  let newOnes := akeys newTable \ akeys oldTable
  if removed ≠ ∅ ∨ newOnes ≠ ∅ then some ⟨removed, newOnes⟩ else none

/-- `ClassSummary`: a class's name, base-class list and body. -/
structure ClassSummary where
  name : String
  bases : List PyExpr
  body : List PyStmt

/-- `ClassPyfference`: a changed class's method differences and a marker for
a changed base-class list. -/
structure ClassPyfference where
  methods : Option FunctionsPyfference
  basesChanged : Bool

/-- `ClassesPyfference`: the `new`, `changed` and `removed` mappings keyed by
class name. -/
structure ClassesPyfference where
  new : List (String × ClassSummary)
  changed : List (String × ClassPyfference)
  removed : List (String × ClassSummary)

/-- Top-level class definitions of a module body (no recursion into other
classes or functions). -/
def extractClasses (body : List PyStmt) : List (String × ClassSummary) :=
  body.foldl
    (fun d stmt =>
      match stmt with
      | .classDef n bases clsBody => upsert n ⟨n, bases, clsBody⟩ d
      | _ => d)
    []

/-- Modelled from the spec (§4.4): the `changed` mapping of the class
comparator — each class present in both modules whose methods differ (by
`pyff_functions` scoped to the class body) or whose base-class list differs
structurally. -/
def changedClasses (old new : List PyStmt)
    (oldImports newImports : ImportedNames) : List (String × ClassPyfference) :=
  let oldD := extractClasses old
  let newD := extractClasses new
  ((oldD.map Prod.fst).filter (fun n => amem n newD)).foldl
    (fun acc n =>
      match alookup n oldD, alookup n newD with
      | some o, some nw =>
          let methods := pyffFunctions o.body nw.body oldImports newImports
          let basesChanged := ¬beqExprList o.bases nw.bases
          if methods.isSome ∨ basesChanged then
            acc ++ [(n, (⟨methods, basesChanged⟩ : ClassPyfference))]
          else acc
      | _, _ => acc)
    []

/-- Modelled from the spec: `pyff_classes` (pyff/classes.py, absent from the
source tree; §4.4).  Top-level classes are partitioned by name into new,
removed and common; each common class's methods are diffed with
`pyff_functions` scoped to the class body and its base-class list is compared
structurally; a `ClassDiff` is built iff any change was found, and the whole
result is null when nothing changed. -/
def pyffClasses (old new : List PyStmt)
    (oldImports newImports : ImportedNames) : Option ClassesPyfference :=
  let oldD := extractClasses old
  let newD := extractClasses new
  let newNames := akeys newD \ akeys oldD
  let removedNames := akeys oldD \ akeys newD
  let changed := changedClasses old new oldImports newImports
  let newClasses := newD.filter (fun p => decide (p.1 ∈ newNames))
  let removedClasses := oldD.filter (fun p => decide (p.1 ∈ removedNames))
  if !changed.isEmpty || !newClasses.isEmpty || !removedClasses.isEmpty then
    some ⟨newClasses, changed, removedClasses⟩
  else none

/-- `ModulePyfference`: optional imports, classes and functions differences
(the `other` slot of the source is never populated and is omitted). -/
structure ModulePyfference where
  imports : Option ImportsPyfference
  classes : Option ClassesPyfference
  functions : Option FunctionsPyfference

/-- `pyff_module` (src/pyff/modules.py lines 115-128): build the two import
tables, run the three comparators, and return a `ModulePyfference` iff any of
them reports a difference. -/
def pyffModule (old new : List PyStmt) : Option ModulePyfference :=
  let oldImports := extractImportedNames old
  let newImports := extractImportedNames new
  let imports := pyffImports old new
  let classes := pyffClasses old new oldImports newImports
  let functions := pyffFunctions old new oldImports newImports
  if imports.isSome || classes.isSome || functions.isSome then
    some ⟨imports, classes, functions⟩
  else none

/-! ## The command-line entry point (src/pyff/entrypoints.py)

Only the branch where both arguments are existing regular files is modelled.
The function body enumerates one file per side, relativizes each path against
itself (yielding `.` on both sides), flags removed/added relative paths, and
iterates the common relative paths emitting a debug log line per pair — it
contains no call into the diff engine.  Its observable outcome is the exit
code together with the log lines of that loop. -/

/-- An existing file handed to the CLI: its path and its parsed content. -/
structure PyFile where
  path : String
  content : List PyStmt

/-- `pathlib.PurePath.relative_to` in the only case the two-file branch
exercises: a path relativized against itself is `.`. -/
def relativeTo (f base : String) : String :=
  if f = base then "." else f

/-- The two-file branch of the `pyff` click command (src/pyff/entrypoints.py
lines 44-75): returns the process exit code and the `Comparing '...' with
'...'` debug lines emitted by the common-file loop. -/
def pyffCliTwoFiles (old new : PyFile) : Nat × List String :=
  let oldFilesRelative := [relativeTo old.path old.path]
  let newFilesRelative := [relativeTo new.path new.path]
  let changed :=
    oldFilesRelative.any (fun f => !newFilesRelative.contains f) ||
      newFilesRelative.any (fun f => !oldFilesRelative.contains f)
  let commonFiles := oldFilesRelative.filter (fun f => newFilesRelative.contains f)
  let debugLog := commonFiles.map
    (fun f => "Comparing " ++ old.path ++ "/" ++ f ++ " with " ++ new.path ++ "/" ++ f)
  (if changed then 1 else 0, debugLog)

/-! ## Observation helpers -/

/-- The key set of the `new` mapping of an optional `FunctionsPyfference`
(empty when no difference was reported). -/
def newNamesOf : Option FunctionsPyfference → Finset String
  | none => ∅
  | some r => (r.new.map Prod.fst).toFinset

/-- The key set of the `removed` mapping of an optional `FunctionsPyfference`
(empty when no difference was reported). -/
def removedNamesOf : Option FunctionsPyfference → Finset String
  | none => ∅
  | some r => (r.removed.map Prod.fst).toFinset

/-- Recognizer for the base ("generic") implementation-change record. -/
def isGenericChange : FIChange → Bool
  | .generic => true
  | _ => false

/-- The implementation-change set of an optional `FunctionPyfference` (empty
when no difference was reported). -/
def implementationOf : Option FunctionPyfference → List FIChange
  | none => []
  | some p => p.implementation

/-! ## Concrete scenario inputs -/

/-- An empty `ast.arguments` node. -/
def noArgs : PyArguments := ⟨[], [], none, none⟩

/-- The argument list `(x)`. -/
def c1Args : PyArguments := ⟨[("x", none)], [], none, none⟩

/-- The statement `return os.path.join("a", x)`. -/
def c1OldStatement : PyStmt :=
  .ret (some (.call (.attr (.attr (.name "os") "path") "join")
    [.constant (.str "a"), .name "x"]))

/-- The statement `return join("a", x)`. -/
def c1NewStatement : PyStmt :=
  .ret (some (.call (.name "join") [.constant (.str "a"), .name "x"]))

/-- The module `import os.path` followed by `def f(x): return
os.path.join("a", x)`. -/
def c1OldModule : List PyStmt :=
  [.imprt [("os.path", none)],
   .functionDef "f" c1Args [c1OldStatement] [] none]

/-- The module `from os.path import join` followed by `def f(x): return
join("a", x)`. -/
def c1NewModule : List PyStmt :=
  [.importFrom "os.path" [("join", none)],
   .functionDef "f" c1Args [c1NewStatement] [] none]

/-- The import table of `c1OldModule`. -/
def c1OldImports : ImportedNames := extractImportedNames c1OldModule

/-- The import table of `c1NewModule`. -/
def c1NewImports : ImportedNames := extractImportedNames c1NewModule

/-- The module `def f(): return 1`. -/
def c2OldContent : List PyStmt :=
  [.functionDef "f" noArgs [.ret (some (.constant (.int 1)))] [] none]

/-- The module `def f(): return 2`. -/
def c2NewContent : List PyStmt :=
  [.functionDef "f" noArgs [.ret (some (.constant (.int 2)))] [] none]

/-- The snippet `def f(): pass` followed by `def g(): pass` — two top-level
functions. -/
def c6TwoFunctions : List PyStmt :=
  [.functionDef "f" noArgs [.other "pass"] [] none,
   .functionDef "g" noArgs [.other "pass"] [] none]

/-- The snippet `def h(): pass` — one top-level function. -/
def c6OneFunction : List PyStmt :=
  [.functionDef "h" noArgs [.other "pass"] [] none]

/-- The statement `x = foo`. -/
def c8OldStatement : PyStmt := .assign (.name "x") (.name "foo")

/-- The statement `x = a.b`. -/
def c8NewStatement : PyStmt := .assign (.name "x") (.attr (.name "a") "b")

/-- An import table binding `foo` to canonical `a.b` (e.g. from
`from a import b as foo`). -/
def c8OldImports : ImportedNames := [("foo", "a.b")]

/-- An empty import table. -/
def c8NewImports : ImportedNames := []

/-- The statement `a` (a bare name used as an expression statement). -/
def c10OldStatement : PyStmt := .exprStmt (.name "a")

/-- The statement `b`. -/
def c10NewStatement : PyStmt := .exprStmt (.name "b")

theorem beqExpr_refl_aux : ∀ a b : PyExpr, a = b → beqExpr a b = true := by
  intro a b
  refine beqExpr.induct (fun a b => a = b → beqExpr a b = true)
    (fun l m => l = m → beqExprList l m = true) ?_ ?_ ?_ ?_ ?_ ?_ ?_ ?_ a b
  · intro x y h; injection h with h1; subst h1; simp [beqExpr]
  · intro v1 a1 v2 a2 ih h; injection h with h1 h2; subst h1; subst h2
    simp [beqExpr, ih rfl]
  · intro c1 c2 h; injection h with h1; subst h1; simp [beqExpr]
  · intro f1 args1 f2 args2 ih1 ih2 h; injection h with h1 h2
    subst h1; subst h2; simp [beqExpr, ih1 rfl, ih2 rfl]
  · intro t x h1 h2 h3 h4 heq; subst heq
    cases t with
    | name s => exact absurd rfl (fun hh => h1 s s hh rfl)
    | attr v a => exact absurd rfl (fun hh => h2 v a v a hh rfl)
    | constant c => exact absurd rfl (fun hh => h3 c c hh rfl)
    | call f args => exact absurd rfl (fun hh => h4 f args f args hh rfl)
  · intro _; simp [beqExprList]
  · intro x xs y ys ih1 ih2 h; injection h with h1 h2
    subst h1; subst h2; simp [beqExprList, ih1 rfl, ih2 rfl]
  · intro t x h1 h2 heq; subst heq
    cases t with
    | nil => exact absurd rfl (fun hh => h1 hh rfl)
    | cons a as => exact absurd rfl (fun hh => h2 a as a as hh rfl)

theorem beqExpr_refl (e : PyExpr) : beqExpr e e = true :=
  beqExpr_refl_aux e e rfl

theorem beqExprList_refl (l : List PyExpr) : beqExprList l l = true := by
  induction l with
  | nil => simp [beqExprList]
  | cons x xs ih => simp [beqExprList, beqExpr_refl, ih]

theorem beqOptExpr_refl (o : Option PyExpr) : beqOptExpr o o = true := by
  cases o with
  | none => simp [beqOptExpr]
  | some e => simp [beqOptExpr, beqExpr_refl]

theorem beqArgList_refl (l : List (String × Option PyExpr)) : beqArgList l l = true := by
  induction l with
  | nil => simp [beqArgList]
  | cons x xs ih => cases x; simp [beqArgList, beqOptExpr_refl, ih]

theorem beqArguments_refl (a : PyArguments) : beqArguments a a = true := by
  simp [beqArguments, beqArgList_refl, beqExprList_refl]

theorem beqStmt_refl_aux : ∀ a b : PyStmt, a = b → beqStmt a b = true := by
  intro a b
  refine beqStmt.induct (fun a b => a = b → beqStmt a b = true)
    (fun l m => l = m → beqStmtList l m = true)
    ?_ ?_ ?_ ?_ ?_ ?_ ?_ ?_ ?_ ?_ ?_ ?_ a b
  · intro v1 v2 h; injection h with h1; subst h1; simp [beqStmt, beqExpr_refl]
  · intro v1 v2 h; injection h with h1; subst h1; simp [beqStmt, beqOptExpr_refl]
  · intro t1 v1 t2 v2 h; injection h with h1 h2; subst h1; subst h2
    simp [beqStmt, beqExpr_refl]
  · intro n1 a1 b1 d1 r1 n2 a2 b2 d2 r2 ih h
    injection h with h1 h2 h3 h4 h5
    subst h1; subst h2; subst h3; subst h4; subst h5
    simp [beqStmt, beqArguments_refl, beqExprList_refl, beqOptExpr_refl, ih rfl]
  · intro n1 bs1 b1 n2 bs2 b2 ih h
    injection h with h1 h2 h3; subst h1; subst h2; subst h3
    simp [beqStmt, beqExprList_refl, ih rfl]
  · intro ns1 ns2 h; injection h with h1; subst h1; simp [beqStmt]
  · intro m1 ns1 m2 ns2 h; injection h with h1 h2; subst h1; subst h2; simp [beqStmt]
  · intro t1 t2 h; injection h with h1; subst h1; simp [beqStmt]
  · intro t x h1 h2 h3 h4 h5 h6 h7 h8 heq; subst heq
    cases t with
    | exprStmt v => exact absurd rfl (fun hh => h1 v v hh rfl)
    | ret v => exact absurd rfl (fun hh => h2 v v hh rfl)
    | assign a v => exact absurd rfl (fun hh => h3 a v a v hh rfl)
    | functionDef n a b d r => exact absurd rfl (fun hh => h4 n a b d r n a b d r hh rfl)
    | classDef n bs b => exact absurd rfl (fun hh => h5 n bs b n bs b hh rfl)
    | imprt ns => exact absurd rfl (fun hh => h6 ns ns hh rfl)
    | importFrom m ns => exact absurd rfl (fun hh => h7 m ns m ns hh rfl)
    | other tg => exact absurd rfl (fun hh => h8 tg tg hh rfl)
  · intro _; simp [beqStmtList]
  · intro x xs y ys ih1 ih2 h; injection h with h1 h2
    subst h1; subst h2; simp [beqStmtList, ih1 rfl, ih2 rfl]
  · intro t x h1 h2 heq; subst heq
    cases t with
    | nil => exact absurd rfl (fun hh => h1 hh rfl)
    | cons a as => exact absurd rfl (fun hh => h2 a as a as hh rfl)

theorem beqStmt_refl (s : PyStmt) : beqStmt s s = true :=
  beqStmt_refl_aux s s rfl

theorem beqStmtList_refl (l : List PyStmt) : beqStmtList l l = true := by
  induction l with
  | nil => simp [beqStmtList]
  | cons x xs ih => simp [beqStmtList, beqStmt_refl, ih]

theorem pyffStatement_self (s : PyStmt) (oi ni : ImportedNames) :
    pyffStatement s s oi ni = none := by
  simp [pyffStatement, beqStmt_refl]


theorem foldl_fixed {f : β → α → β} (h : ∀ b a, f b a = b) :
    ∀ (l : List α) (b : β), List.foldl f b l = b := by
  intro l
  induction l with
  | nil => intro b; rfl
  | cons x xs ih => intro b; rw [List.foldl_cons, h]; exact ih b

theorem walkBodies_self (oi ni : ImportedNames) :
    ∀ (l : List PyStmt) (acc : List FIChange), walkBodies oi ni l l acc = acc := by
  intro l
  induction l with
  | nil => intro acc; rfl
  | cons s ss ih =>
      intro acc
      simp only [walkBodies, pyffStatement_self]
      exact ih acc

theorem compareImportUsage_self (f g : FnDef) (imports : ImportedNames)
    (h : f.body = g.body) : compareImportUsage f g imports imports = none := by
  simp [compareImportUsage, h]

theorem pyffFunctionImpl_self (s : FunctionSummary) (imports : ImportedNames)
    (ct cd : Bool) : pyffFunctionImpl s s imports imports ct cd = [] := by
  simp [pyffFunctionImpl, beqExprList_refl, beqOptExpr_refl, beqArguments_refl,
    walkBodies_self, compareImportUsage_self]

theorem pyffFunction_self (s : FunctionSummary) (imports : ImportedNames)
    (ct cd : Bool) : pyffFunction s s imports imports ct cd = none := by
  simp [pyffFunction, pyffFunctionImpl_self]

theorem changedFunctions_self (m : List PyStmt) (imports : ImportedNames) :
    changedFunctions m m imports imports = [] := by
  simp only [changedFunctions]
  refine foldl_fixed ?_ _ _
  intro acc n
  cases h : alookup n (extractFunctions m) with
  | none => simp [h]
  | some s => simp [h, pyffFunction_self]

theorem restrictTo_empty (d : List (String × FunctionSummary)) :
    restrictTo ∅ d = [] := by
  simp [restrictTo]

theorem pyffFunctions_self (m : List PyStmt) (imports : ImportedNames) :
    pyffFunctions m m imports imports = none := by
  simp [pyffFunctions, changedFunctions_self, restrictTo_empty]

theorem pyffImports_self (m : List PyStmt) : pyffImports m m = none := by
  simp [pyffImports]

theorem changedClasses_self (m : List PyStmt) (imports : ImportedNames) :
    changedClasses m m imports imports = [] := by
  simp only [changedClasses]
  refine foldl_fixed ?_ _ _
  intro acc n
  cases h : alookup n (extractClasses m) with
  | none => simp [h]
  | some c => simp [h, pyffFunctions_self, beqExprList_refl]

theorem pyffClasses_self (m : List PyStmt) (imports : ImportedNames) :
    pyffClasses m m imports imports = none := by
  simp [pyffClasses, changedClasses_self]

theorem restrictTo_keys (names : Finset String) (d : List (String × FunctionSummary)) :
    ((restrictTo names d).map Prod.fst).toFinset = akeys d ∩ names := by
  ext x
  simp only [restrictTo, akeys, List.mem_toFinset, List.mem_map, List.mem_filter,
    Finset.mem_inter, decide_eq_true_eq]
  constructor
  · rintro ⟨p, ⟨hp, hmem⟩, rfl⟩
    exact ⟨⟨p, hp, rfl⟩, hmem⟩
  · rintro ⟨⟨p, hp, rfl⟩, hx⟩
    exact ⟨p, ⟨hp, hx⟩, rfl⟩

theorem newNamesOf_pyffFunctions (o n : List PyStmt) (oi ni : ImportedNames) :
    newNamesOf (pyffFunctions o n oi ni) = functionNames n \ functionNames o := by
  simp only [pyffFunctions, functionNames]
  split
  · simp only [newNamesOf]
    rw [restrictTo_keys]
    exact Finset.inter_eq_right.mpr Finset.sdiff_subset
  · rename_i h
    simp only [Bool.not_eq_true, Bool.or_eq_false_iff, Bool.not_eq_false'] at h
    have h2 := h.1.2
    have hnil : restrictTo (akeys (extractFunctions n) \ akeys (extractFunctions o))
        (extractFunctions n) = [] := by
      simpa [List.isEmpty_iff] using h2
    have := restrictTo_keys (akeys (extractFunctions n) \ akeys (extractFunctions o))
      (extractFunctions n)
    rw [hnil] at this
    simp only [List.map_nil, List.toFinset_nil] at this
    rw [Finset.inter_eq_right.mpr Finset.sdiff_subset] at this
    simp [newNamesOf, ← this]

theorem removedNamesOf_pyffFunctions (o n : List PyStmt) (oi ni : ImportedNames) :
    removedNamesOf (pyffFunctions o n oi ni) = functionNames o \ functionNames n := by
  simp only [pyffFunctions, functionNames]
  split
  · simp only [removedNamesOf]
    rw [restrictTo_keys]
    exact Finset.inter_eq_right.mpr Finset.sdiff_subset
  · rename_i h
    simp only [Bool.not_eq_true, Bool.or_eq_false_iff, Bool.not_eq_false'] at h
    have h3 := h.2
    have hnil : restrictTo (akeys (extractFunctions o) \ akeys (extractFunctions n))
        (extractFunctions o) = [] := by
      simpa [List.isEmpty_iff] using h3
    have := restrictTo_keys (akeys (extractFunctions o) \ akeys (extractFunctions n))
      (extractFunctions o)
    rw [hnil] at this
    simp only [List.map_nil, List.toFinset_nil] at this
    rw [Finset.inter_eq_right.mpr Finset.sdiff_subset] at this
    simp [removedNamesOf, ← this]

/-! ## Claim theorems -/

/-- C3: Identity — for every module `M`, `pyff_module(M, M)` returns null: no
`ModuleDiff` is produced when both inputs are the same AST. -/
theorem claim_c3_module_identity (m : List PyStmt) : pyffModule m m = none := by
  simp [pyffModule, pyffImports_self, pyffClasses_self, pyffFunctions_self]

/-- C4: Anti-symmetry of additions and removals — for every pair of modules
and import tables, the set of function names in the `new` mapping of
`pyff_functions(M1, M2)` equals the set of names in the `removed` mapping of
`pyff_functions(M2, M1)`. -/
theorem claim_c4_new_removed_antisymmetry (m1 m2 : List PyStmt)
    (oi ni oi2 ni2 : ImportedNames) :
    newNamesOf (pyffFunctions m1 m2 oi ni) =
      removedNamesOf (pyffFunctions m2 m1 oi2 ni2) := by
  rw [newNamesOf_pyffFunctions, removedNamesOf_pyffFunctions]

/-- C5: For every `StatementPyfference`, `semantically_different()` is true
iff the semantically relevant set is non-empty or both sets are empty, and
`is_specific()` is true iff at least one of the two sets is non-empty. -/
theorem claim_c5_predicates (p : StatementPyfference) :
    (p.semanticallyDifferent = true ↔
      (p.semanticallyRelevant ≠ ∅ ∨
        (p.semanticallyRelevant = ∅ ∧ p.semanticallyIrrelevant = ∅))) ∧
    (p.isSpecific = true ↔
      (p.semanticallyRelevant ≠ ∅ ∨ p.semanticallyIrrelevant ≠ ∅)) := by
  constructor
  · simp only [StatementPyfference.semanticallyDifferent, decide_eq_true_eq]
    tauto
  · simp only [StatementPyfference.isSpecific, decide_eq_true_eq]

theorem pySetEq_generic (x : FIChange) : pySetEq x .generic = isGenericChange x := by
  cases x <;> rfl

theorem countP_pyInsert (c : FIChange) (l : List FIChange)
    (h : l.countP isGenericChange ≤ 1) :
    (pyInsert c l).countP isGenericChange ≤ 1 := by
  unfold pyInsert
  split
  · exact h
  · rename_i hany
    cases c with
    | generic =>
        have hzero : l.countP isGenericChange = 0 := by
          rw [List.countP_eq_zero]
          intro x hx
          intro hgen
          exact hany (List.any_eq_true.mpr ⟨x, hx, by rw [pySetEq_generic]; exact hgen⟩)
        rw [List.countP_append, hzero]
        simp [List.countP_cons, isGenericChange]
    | externalUsage g a =>
        rw [List.countP_append]
        simpa [List.countP_cons, isGenericChange] using h
    | statementChange ch =>
        rw [List.countP_append]
        simpa [List.countP_cons, isGenericChange] using h

theorem countP_walkBodies (oi ni : ImportedNames) :
    ∀ (o n : List PyStmt) (acc : List FIChange),
      acc.countP isGenericChange ≤ 1 →
      (walkBodies oi ni o n acc).countP isGenericChange ≤ 1 := by
  intro o
  induction o with
  | nil =>
      intro n acc h
      cases n with
      | nil => exact h
      | cons x xs =>
          simp only [walkBodies]
          exact countP_pyInsert _ _ h
  | cons s ss ih =>
      intro n acc h
      cases n with
      | nil =>
          simp only [walkBodies]
          exact countP_pyInsert _ _ h
      | cons x xs =>
          simp only [walkBodies]
          cases hps : pyffStatement s x oi ni with
          | none => exact ih xs acc h
          | some change =>
              dsimp only
              by_cases hsp : change.isSpecific = true
              · rw [if_pos hsp]
                exact ih xs _ (countP_pyInsert _ _ h)
              · rw [if_neg hsp]
                exact ih xs _ (countP_pyInsert _ _ h)

theorem countP_pyffFunctionImpl (o n : FunctionSummary) (oi ni : ImportedNames)
    (ct cd : Bool) :
    (pyffFunctionImpl o n oi ni ct cd).countP isGenericChange ≤ 1 := by
  simp only [pyffFunctionImpl]
  have hifs :
      (if ct ∧ ¬beqArguments o.node.args n.node.args then
        pyInsert .generic
          (if ct ∧ ¬beqOptExpr o.node.returns n.node.returns then
            pyInsert .generic
              (if ¬beqExprList o.node.decoratorList n.node.decoratorList then
                pyInsert .generic [] else [])
          else
            (if ¬beqExprList o.node.decoratorList n.node.decoratorList then
              pyInsert .generic [] else []))
      else
        (if ct ∧ ¬beqOptExpr o.node.returns n.node.returns then
          pyInsert .generic
            (if ¬beqExprList o.node.decoratorList n.node.decoratorList then
              pyInsert .generic [] else [])
        else
          (if ¬beqExprList o.node.decoratorList n.node.decoratorList then
            pyInsert .generic [] else []))).countP isGenericChange ≤ 1 := by
    split <;> split <;> split <;>
      first
        | simp
        | (apply countP_pyInsert; first | simp | (apply countP_pyInsert; first | simp | (apply countP_pyInsert; simp)))
  have hwalk := countP_walkBodies oi ni
    (effectiveBody cd o.node.body) (effectiveBody cd n.node.body) _ hifs
  cases hciu : compareImportUsage o.node n.node oi ni with
  | none => exact hwalk
  | some c => exact countP_pyInsert _ _ hwalk

/-- C9: Any two base `FunctionImplementationChange` (generic) records compare
equal and hash identically in Python, so however many generic mismatches
`pyff_function` records (decorators, return annotation, arguments,
body-length mismatch, unidentified statement differences), the
implementation set of the resulting difference contains at most one generic
change. -/
theorem claim_c9_at_most_one_generic (o n : FunctionSummary)
    (oi ni : ImportedNames) (ct cd : Bool) :
    (implementationOf (pyffFunction o n oi ni ct cd)).countP isGenericChange ≤ 1 := by
  cases hx : pyffFunction o n oi ni ct cd with
  | none => simp [implementationOf]
  | some p =>
      have hp : p.implementation = pyffFunctionImpl o n oi ni ct cd := by
        simp only [pyffFunction] at hx
        by_cases hcond : ((if o.name ≠ n.name then some o.name else none) = none ∧
            pyffFunctionImpl o n oi ni ct cd = [])
        · rw [if_pos hcond] at hx
          exact absurd hx (by simp)
        · rw [if_neg hcond] at hx
          have hrec := Option.some.inj hx
          rw [← hrec]
      simp only [implementationOf, hp]
      exact countP_pyffFunctionImpl o n oi ni ct cd

/-- C10: Every `StatementPyfference` returned by `pyff_statement` has an
empty semantically relevant set; its semantically irrelevant set is the
single `ExternalNameUsageChange` found by `find_external_name_matches` (or
empty when none was found); consequently `semantically_different()` is true
exactly when `find_external_name_matches` returned no change. -/
theorem claim_c10_statement_diff_shape (o n : PyStmt) (oi ni : ImportedNames)
    (d : StatementPyfference) (h : pyffStatement o n oi ni = some d) :
    d.semanticallyRelevant = ∅ ∧
    d.semanticallyIrrelevant =
      (match findExternalNameMatches o n oi ni with
       | some c => {StmtChange.externalNameUsage c}
       | none => ∅) ∧
    (d.semanticallyDifferent = true ↔ findExternalNameMatches o n oi ni = none) := by
  unfold pyffStatement at h
  split at h
  · exact absurd h (by simp)
  · cases hf : findExternalNameMatches o n oi ni with
    | some c =>
        rw [hf] at h
        have hd : d = ⟨∅, {StmtChange.externalNameUsage c}⟩ := (Option.some.inj h).symm
        subst hd
        refine ⟨rfl, rfl, ?_⟩
        simp [StatementPyfference.semanticallyDifferent]
    | none =>
        rw [hf] at h
        have hd : d = ⟨∅, ∅⟩ := (Option.some.inj h).symm
        subst hd
        refine ⟨rfl, rfl, ?_⟩
        simp [StatementPyfference.semanticallyDifferent]

/-- Witness for C10 at the concrete statement pair `a` / `b` under empty import
tables: `pyff_statement` returns the difference with two empty sets,
and the claim's conclusion holds for it. -/
theorem claim_c10_witness :
    pyffStatement c10OldStatement c10NewStatement [] [] = some ⟨∅, ∅⟩ ∧
    ((⟨∅, ∅⟩ : StatementPyfference).semanticallyRelevant = ∅ ∧
      (⟨∅, ∅⟩ : StatementPyfference).semanticallyIrrelevant =
        (match findExternalNameMatches c10OldStatement c10NewStatement [] [] with
         | some c => {StmtChange.externalNameUsage c}
         | none => ∅) ∧
      ((⟨∅, ∅⟩ : StatementPyfference).semanticallyDifferent = true ↔
        findExternalNameMatches c10OldStatement c10NewStatement [] [] = none)) :=
  ⟨by decide,
   claim_c10_statement_diff_shape c10OldStatement c10NewStatement [] [] ⟨∅, ∅⟩ (by decide)⟩

/-- C1 counterexample: for the claimed rewrite (`import os.path` with
`os.path.join("a", x)` replaced by `from os.path import join` with
`join("a", x)`), `pyff_statement` does *not* return a difference whose only
change sits in the semantically irrelevant set — the returned difference has
both sets empty (the canonicalized forms `os.path.path.join` and
`os.path.join` differ, so no external-name match is found). -/
theorem claim_c1_counterexample :
    ¬((∃ d, pyffStatement c1OldStatement c1NewStatement c1OldImports c1NewImports = some d ∧
          d.semanticallyRelevant = ∅ ∧ d.semanticallyIrrelevant ≠ ∅) ∧
      "f" ∉ (changedFunctions c1OldModule c1NewModule c1OldImports c1NewImports).map
        Prod.fst) := by
  rintro ⟨⟨d, hd, -, hirr⟩, -⟩
  have heq : pyffStatement c1OldStatement c1NewStatement c1OldImports c1NewImports =
      some ⟨∅, ∅⟩ := by decide
  rw [heq] at hd
  have hde := Option.some.inj hd
  apply hirr
  rw [← hde]

/-- C1 amended: on the rewrite of the import-aliasing scenario the statement
comparator returns a difference with *no* identified change in either set
(which `semantically_different()` conservatively treats as a relevant
difference), and the enclosing function `f` *is* reported in the `changed`
mapping of `pyff_functions`. -/
theorem claim_c1_amended :
    c1OldImports = extractImportedNames c1OldModule ∧
    c1NewImports = extractImportedNames c1NewModule ∧
    pyffStatement c1OldStatement c1NewStatement c1OldImports c1NewImports = some ⟨∅, ∅⟩ ∧
    (⟨∅, ∅⟩ : StatementPyfference).semanticallyDifferent = true ∧
    (changedFunctions c1OldModule c1NewModule c1OldImports c1NewImports).map Prod.fst =
      ["f"] :=
  ⟨rfl, rfl, by decide, by decide, by decide⟩

/-- C2: the two-file branch of the CLI exits with code 0 for *every* pair of
existing files — it never invokes the diff engine (the common-file loop only
emits a debug line) — even though the engine itself reports a difference for
the concrete pair `def f(): return 1` / `def f(): return 2`. -/
theorem claim_c2_cli_never_invokes_engine :
    (∀ old new : PyFile, (pyffCliTwoFiles old new).1 = 0) ∧
    (pyffModule c2OldContent c2NewContent).isSome = true := by
  constructor
  · intro old new
    simp [pyffCliTwoFiles, relativeTo]
  · decide

/-- C6 counterexample: an old snippet with *two* top-level functions and a
new snippet with one does not raise — `popitem` silently takes the most
recently defined function (`g`) from the old snippet and the comparison
succeeds, reporting the rename `g` to `h`. -/
theorem claim_c6_counterexample :
    pyffFunctionCode c6TwoFunctions c6OneFunction [] [] =
      .ok (some ⟨"h", some "g", []⟩) := by
  rfl

/-- C6 amended: `pyff_function_code` fails with the descriptive message
`Old module does not seem to contain exactly one function code` when the old
snippet contains zero top-level functions; a snippet with more than one
top-level function does not fail — the most recently defined function is
used for the comparison. -/
theorem claim_c6_amended :
    (∀ (old new : List PyStmt) (oi ni : ImportedNames), extractFunctions old = [] →
       pyffFunctionCode old new oi ni =
         .error "Old module does not seem to contain exactly one function code") ∧
    (∀ oi ni : ImportedNames,
       pyffFunctionCode c6TwoFunctions c6OneFunction oi ni =
         .ok (pyffFunction ⟨"g", ⟨"g", noArgs, [.other "pass"], [], none⟩, false⟩
           ⟨"h", ⟨"h", noArgs, [.other "pass"], [], none⟩, false⟩ oi ni true false)) := by
  constructor
  · intro old new oi ni h
    simp [pyffFunctionCode, h, popitem]
  · intro oi ni
    rfl

/-- Witness for C6 (amended): a snippet with no function definition makes
`pyff_function_code` fail with the documented message. -/
theorem claim_c6_amended_witness :
    extractFunctions [PyStmt.other "pass"] = [] ∧
    pyffFunctionCode [PyStmt.other "pass"] c6OneFunction [] [] =
      .error "Old module does not seem to contain exactly one function code" :=
  ⟨rfl, claim_c6_amended.1 [PyStmt.other "pass"] c6OneFunction [] [] rfl⟩

/-- C8 counterexample: for `x = foo` (with `foo` bound to canonical `a.b`)
against `x = a.b` (no imports), the statements differ, the canonicalized
forms coincide, and no substitution of either side cross-matches a reference
of the other side — yet `find_external_name_matches` returns `None`, not an
`ExternalNameUsageChange` holding an empty set
(`return ExternalNameUsageChange(changes) if changes else None`). -/
theorem claim_c8_counterexample :
    beqStmt c8OldStatement c8NewStatement = false ∧
    beqStmt (runFQ c8OldImports c8OldStatement).1 (runFQ c8NewImports c8NewStatement).1 =
      true ∧
    crossMatchesOld (runFQ c8OldImports c8OldStatement).2.substitutions
      (runFQ c8NewImports c8NewStatement).2.references = ∅ ∧
    crossMatchesNew (runFQ c8NewImports c8NewStatement).2.substitutions
      (runFQ c8OldImports c8OldStatement).2.references = ∅ ∧
    findExternalNameMatches c8OldStatement c8NewStatement c8OldImports c8NewImports ≠
      some (∅ : Finset (String × String)) ∧
    findExternalNameMatches c8OldStatement c8NewStatement c8OldImports c8NewImports =
      none := by
  refine ⟨by decide, by decide, by decide, by decide, by decide, by decide⟩

/-- C8 amended: when two differing statements canonicalize to structurally
identical ASTs but no substitution of either side cross-matches a reference
of the other side, `find_external_name_matches` returns `None` (no change
record at all); the caller then records nothing, so the difference is
treated as unidentified. -/
theorem claim_c8_amended (old new : PyStmt) (oi ni : ImportedNames)
    (h1 : beqStmt old new = false)
    (h2 : beqStmt (runFQ oi old).1 (runFQ ni new).1 = true)
    (h3 : crossMatchesOld (runFQ oi old).2.substitutions (runFQ ni new).2.references = ∅)
    (h4 : crossMatchesNew (runFQ ni new).2.substitutions (runFQ oi old).2.references = ∅) :
    findExternalNameMatches old new oi ni = none := by
  simp only [findExternalNameMatches, h1, h2, h3, h4]
  simp

/-- Witness for C8 (amended) at `bar` (bound to canonical `c.d`) against
`c.d` under an empty import table. -/
theorem claim_c8_amended_witness :
    findExternalNameMatches (.exprStmt (.name "bar")) (.exprStmt (.attr (.name "c") "d"))
      [("bar", "c.d")] [] = none :=
  claim_c8_amended (.exprStmt (.name "bar")) (.exprStmt (.attr (.name "c") "d"))
    [("bar", "c.d")] [] (by decide) (by decide) (by decide) (by decide)

end Pyff
